import Mathlib

/-!
Shallow embedding of the deal-discovery pipeline of the AmznPriceErrorsCA
repository (bot.py, bot_full.py, scrape_and_notify.py).

Text fragments scraped from a page are modelled as lists of characters.
Python string operations used by the source (strip, replace, lstrip, lower,
split) are modelled by the corresponding list functions below.  Prices are
modelled as exact rationals; Python int() truncation toward zero is `pyInt`.
HTML selection (BeautifulSoup select_one) is abstracted: a result block is a
record of the optional text fragments the source selects from it, and a
fetch is either a page (list of blocks) or a raised transport exception.
-/

set_option autoImplicit false

namespace AmznDeals

/-- A scraped text fragment, rendered as its list of characters. -/
abbrev Txt := List Char

/-- Model of Python str.strip(): drop whitespace from both ends. -/
def pyStrip (s : Txt) : Txt :=
  (((s.dropWhile Char.isWhitespace).reverse).dropWhile Char.isWhitespace).reverse

/-- Model of Python replace(",", ""): remove every comma. -/
def removeCommas (s : Txt) : Txt := s.filter (fun c => c ≠ ',')

/-- Model of Python lstrip("$"): drop leading dollar signs. -/
def lstripDollar (s : Txt) : Txt := s.dropWhile (fun c => c = '$')

/-- Model of Python str.lower() on the ASCII category keys. -/
def pyLower (s : Txt) : Txt := s.map Char.toLower

/-- Numeric value of a digit string, most significant digit first. -/
def digitsVal (s : Txt) : ℕ := s.foldl (fun n c => 10 * n + (c.toNat - 48)) 0

/-- Helper for `pySplitWS`: accumulate the current word (reversed). -/
def splitWSAux : Txt → Txt → List Txt
  | [], acc => if acc.isEmpty then [] else [acc.reverse]
  | c :: r, acc =>
    if c.isWhitespace then
      if acc.isEmpty then splitWSAux r [] else acc.reverse :: splitWSAux r []
    else splitWSAux r (c :: acc)

/-- Model of Python str.split() with no argument: split on whitespace runs,
dropping empty pieces. -/
def pySplitWS (s : Txt) : List Txt := splitWSAux s []

/-- Core of the float parser, applied after whitespace stripping: an optional
run of digits, then optionally a dot and a second run of digits, at least one
digit overall. -/
def parseFloatCore (t : Txt) : Option ℚ :=
  match t.dropWhile Char.isDigit with
  | [] =>
    if (t.takeWhile Char.isDigit).isEmpty then none
    else some (digitsVal (t.takeWhile Char.isDigit))
  | c :: fr =>
    if c == '.' && fr.all Char.isDigit
        && (!(t.takeWhile Char.isDigit).isEmpty || !fr.isEmpty) then
      some ((digitsVal (t.takeWhile Char.isDigit) : ℚ)
        + (digitsVal fr : ℚ) / (10 : ℚ) ^ fr.length)
    else none

/-- Model of Python float() restricted to the shapes the scraped price texts
take: an unsigned decimal literal with optional surrounding whitespace.
Exponent, sign, underscore and inf/nan forms of float() are not modelled, and
a failing parse is `none` (the ValueError branch of the source). -/
def parseFloatTxt (s : Txt) : Option ℚ := parseFloatCore (pyStrip s)

/-- Model of Python int() applied to a real value: truncation toward zero. -/
def pyInt (q : ℚ) : ℤ := if q < 0 then -(⌊-q⌋) else ⌊q⌋

/-- The affiliate tag, at its default value from the source. -/
def AFFILIATE_TAG : Txt := "amznerrorsca-20".toList

/-- Canonical affiliate link built from an item identifier, as in all three
variants. -/
def mkLink (asin : Txt) : Txt :=
  "https://www.amazon.ca/dp/".toList ++ asin ++ "?tag=".toList ++ AFFILIATE_TAG

/-- Helper for `afterLastDp`: text after the last occurrence of the marker
"/dp/", or none when the marker does not occur. -/
def afterLastDpCore : Txt → Option Txt
  | '/' :: 'd' :: 'p' :: '/' :: r => some ((afterLastDpCore r).getD r)
  | _ :: r => afterLastDpCore r
  | [] => none

/-- Model of href.split("/dp/")[-1]: the text after the last "/dp/" marker,
or the whole text when the marker is absent. -/
def afterLastDp (s : Txt) : Txt := (afterLastDpCore s).getD s

/-- Model of href.split("/dp/")[-1].split("/")[0]: the item identifier taken
from the detail-link path. -/
def extractAsin (href : Txt) : Txt :=
  (afterLastDp href).takeWhile (fun c => c ≠ '/')

/-- One result block of a listing page: the text fragments the source selects
with select_one, each possibly absent. -/
structure Block where
  title : Option Txt
  saleWhole : Option Txt
  saleFrac : Option Txt
  origText : Option Txt
  href : Option Txt
deriving DecidableEq

/-- A deal record as built by the scrape loops.  The source stores the two
prices back as strings formatted to two decimals and scrape_and_notify.py
renders the discount with a percent sign; the numeric content is modelled. -/
structure Deal where
  title : Txt
  salePrice : ℚ
  origPrice : ℚ
  discount : ℤ
  link : Txt
  asin : Txt
deriving DecidableEq

/-- An uncaught Python exception raised inside a scrape loop: division by
zero at the discount computation, or indexing the absent detail link. -/
inductive Fault
  | zeroDiv
  | missingHref
deriving DecidableEq

/-- Sale-price text as assembled by bot.py and scrape_and_notify.py:
stripped comma-free whole part, a dot, then the stripped fraction or "00"
when the fraction node is absent. -/
def saleTxt (w : Txt) (f : Option Txt) : Txt :=
  removeCommas (pyStrip w) ++ ('.' :: (match f with | some t => pyStrip t | none => ['0', '0']))

/-- Sale-price parser of bot.py and scrape_and_notify.py. -/
def parseSaleSN (w : Txt) (f : Option Txt) : Option ℚ := parseFloatTxt (saleTxt w f)

/-- Sale-price text as assembled by bot_full.py: the comma-free whole part
with ".00" appended; the fraction node is never consulted. -/
def saleTxtFull (w : Txt) : Txt := removeCommas w ++ ('.' :: ['0', '0'])

/-- Sale-price parser of bot_full.py. -/
def parseSaleFull (w : Txt) : Option ℚ := parseFloatTxt (saleTxtFull w)

/-- Original-price text cleaning shared by all variants: strip, drop leading
dollar signs, remove commas. -/
def origTxt (o : Txt) : Txt := removeCommas (lstripDollar (pyStrip o))

/-- Original-price parser shared by all variants. -/
def parseOrig (o : Txt) : Option ℚ := parseFloatTxt (origTxt o)

/-- One iteration of the scrape loop of bot.py and scrape_and_notify.py over
a result block: presence check on title, sale whole and original price, price
parsing with the ValueError branch skipping the block, the fixed threshold of
90, then the detail-link lookup.  `Fault` marks the two uncaught exceptions
of that code path. -/
def processBlockSN (b : Block) : Except Fault (Option Deal) :=
  match b.title, b.saleWhole, b.origText with
  | some t, some w, some o =>
    match parseSaleSN w b.saleFrac, parseOrig o with
    | some sale, some orig =>
      if orig = 0 then .error .zeroDiv
      else
        if (orig - sale) / orig * 100 < 90 then .ok none
        else
          match b.href with
          | some h =>
            .ok (some { title := pyStrip t, salePrice := sale, origPrice := orig,
                        discount := pyInt ((orig - sale) / orig * 100),
                        link := mkLink (extractAsin h), asin := extractAsin h })
          | none => .error .missingHref
    | _, _ => .ok none
  | _, _, _ => .ok none

/-- One iteration of the scrape loop of bot_full.py over a result block: the
fraction node is ignored, the discount is truncated to an int before the
threshold comparison, and the threshold is the min_discount parameter. -/
def processBlockFull (minD : ℤ) (b : Block) : Except Fault (Option Deal) :=
  match b.title, b.saleWhole, b.origText with
  | some t, some w, some o =>
    match parseSaleFull w, parseOrig o with
    | some sale, some orig =>
      if orig = 0 then .error .zeroDiv
      else
        if pyInt ((orig - sale) / orig * 100) < minD then .ok none
        else
          match b.href with
          | some h =>
            .ok (some { title := pyStrip t, salePrice := sale, origPrice := orig,
                        discount := pyInt ((orig - sale) / orig * 100),
                        link := mkLink (extractAsin h), asin := extractAsin h })
          | none => .error .missingHref
    | _, _ => .ok none
  | _, _, _ => .ok none

/-- The scrape loop over the blocks of one page, accumulating deals in order
and propagating an uncaught exception. -/
def scrapeCatGo (f : Block → Except Fault (Option Deal)) (acc : List Deal) :
    List Block → Except Fault (List Deal)
  | [] => .ok acc
  | b :: bs =>
    match f b with
    | .error e => .error e
    | .ok none => scrapeCatGo f acc bs
    | .ok (some d) => scrapeCatGo f (acc ++ [d]) bs

/-- scrape_category of scrape_and_notify.py (and the inline per-page loop of
bot.py, which runs the same selectors, parses and threshold). -/
def scrapeCategorySN (blocks : List Block) : Except Fault (List Deal) :=
  scrapeCatGo processBlockSN [] blocks

/-- scrape_category of bot_full.py, parameterized by min_discount. -/
def scrapeCategoryFull (minD : ℤ) (blocks : List Block) : Except Fault (List Deal) :=
  scrapeCatGo (processBlockFull minD) [] blocks

/-- The outcome of fetching one locator: a page, or a raised transport
exception. -/
abbrev Fetch := Except Unit (List Block)

/-- A reason the aggregation of scrape_and_notify.py or bot_full.py stops
early: an unhandled fetch exception, or a fault inside the page loop. -/
inductive ScrapeErr
  | fetch
  | fault (f : Fault)
deriving DecidableEq

/-- Aggregation loop without fetch exception handling, shared shape of
scrape_deals in scrape_and_notify.py and bot_full.py: a fetch exception or a
page fault propagates and aborts the whole aggregation. -/
def aggGo (pageRun : List Block → Except Fault (List Deal)) (acc : List Deal) :
    List Fetch → Except ScrapeErr (List Deal)
  | [] => .ok acc
  | .error _ :: _ => .error .fetch
  | .ok page :: fs =>
    match pageRun page with
    | .error e => .error (.fault e)
    | .ok ds => aggGo pageRun (acc ++ ds) fs

/-- scrape_deals of scrape_and_notify.py: requests.get is not wrapped in
try/except, so one failing locator aborts the whole scan. -/
def scrapeDealsSN (fs : List Fetch) : Except ScrapeErr (List Deal) :=
  aggGo scrapeCategorySN [] fs

/-- scrape_deals of bot_full.py: same unprotected shape, with the
min_discount parameter. -/
def scrapeDealsFull (minD : ℤ) (fs : List Fetch) : Except ScrapeErr (List Deal) :=
  aggGo (scrapeCategoryFull minD) [] fs

/-- scrape_deals of bot.py: requests.get is wrapped in try/except and a
failing locator is logged and skipped; the page loop itself is not wrapped. -/
def scrapeDealsBotGo (acc : List Deal) : List Fetch → Except Fault (List Deal)
  | [] => .ok acc
  | .error _ :: fs => scrapeDealsBotGo acc fs
  | .ok page :: fs =>
    match scrapeCategorySN page with
    | .error e => .error e
    | .ok ds => scrapeDealsBotGo (acc ++ ds) fs

/-- scrape_deals of bot.py. -/
def scrapeDealsBot (fs : List Fetch) : Except Fault (List Deal) :=
  scrapeDealsBotGo [] fs

/-- The mapped path of the one category of bot_full.py. -/
def elecPath : Txt := "/Electronics-Accessories/b/?ie=UTF8&node=667823011".toList

/-- CATEGORY_MAP of bot_full.py. -/
def CATEGORY_MAP : List (Txt × Txt) := [("electronics".toList, elecPath)]

/-- make_url of bot_full.py: prepend the host and append the ascending-price
sort parameter with the separator chosen by whether the path already has a
query string. -/
def make_url (p : Txt) : Txt :=
  "https://www.amazon.ca".toList ++ p ++
    (if p.contains '?' then "&sort=price-asc-rank".toList else "?sort=price-asc-rank".toList)

/-- get_category_urls of bot_full.py.  Python truthiness: both None and the
empty string take the all-categories branch; a truthy key is lowered and
looked up, an unmapped or empty mapped path yields the empty list. -/
def get_category_urls (cat : Option Txt) : List Txt :=
  match cat with
  | none => CATEGORY_MAP.map (fun kv => make_url kv.2)
  | some c =>
    if c.isEmpty then CATEGORY_MAP.map (fun kv => make_url kv.2)
    else
      match CATEGORY_MAP.lookup (pyLower c) with
      | some p => if p.isEmpty then [] else [make_url p]
      | none => []

/-- Whether a text ends with the given pattern. -/
def endsWithTxt (s pat : Txt) : Bool := s.drop (s.length - pat.length) == pat

/-- is_new_deal of bot.py and scrape_and_notify.py, with the persisted list
of links passed and returned explicitly: a present link returns false and
leaves the state unchanged, an absent link is appended and persisted before
true is returned. -/
def is_new_deal (link : Txt) (seen : List Txt) : Bool × List Txt :=
  if link ∈ seen then (false, seen) else (true, seen ++ [link])

/-- job_callback of bot.py: each scraped deal is passed through is_new_deal
and only a new one is sent; the returned pair is the sent deals and the
final Seen-Set state. -/
def jobCallback (deals : List Deal) (seen : List Txt) : List Deal × List Txt :=
  deals.foldl
    (fun st d =>
      let r := is_new_deal d.link st.2
      if r.1 then (st.1 ++ [d], r.2) else (st.1, r.2))
    ([], seen)

/-- job_subscriptions of bot_full.py: for every stored (user, category,
min_discount) it scrapes that category at that threshold and sends every
returned deal.  The job neither reads nor writes the Seen-Set file, so the
threaded Seen-Set state is returned unchanged and does not influence the
emitted (user, deal) obligations.  scrape_deals is abstracted as dealsOf. -/
def jobSubscriptions (subs : List (Txt × List (Txt × ℤ)))
    (dealsOf : Txt → ℤ → List Deal) (seen : List Txt) :
    List (Txt × Deal) × List Txt :=
  (subs.foldl
    (fun acc p =>
      p.2.foldl (fun acc q => acc ++ (dealsOf q.1 q.2).map (fun d => (p.1, d))) acc)
    [], seen)

/-- Locator fetched by job_alerts for a length-10 target. -/
def alertUrl (item : Txt) : Txt :=
  "https://www.amazon.ca/dp/".toList ++ item ++ "?tag=".toList ++ AFFILIATE_TAG

/-- Inner loop of job_alerts of bot_full.py over the alerts of one user:
only a target of length exactly 10 is fetched, and when the fetch yields at
least one deal the first deal is sent to that user; the stored min_drop is
never consulted.  Returns the fetched locators and the emitted (user, deal)
obligations. -/
def jobAlertsItems (fetchItem : Txt → List Deal) (uid : Txt) :
    List (Txt × ℤ) → List Txt × List (Txt × Deal)
  | [] => ([], [])
  | q :: qs =>
    let rest := jobAlertsItems fetchItem uid qs
    if q.1.length = 10 then
      (alertUrl q.1 :: rest.1,
       match fetchItem q.1 with
       | [] => rest.2
       | d :: _ => (uid, d) :: rest.2)
    else rest

/-- job_alerts of bot_full.py over the whole alerts table (the DEBUG_PING
extra message is independent of the targets and not part of the emitted
deal obligations). -/
def jobAlerts (fetchItem : Txt → List Deal) :
    List (Txt × List (Txt × ℤ)) → List Txt × List (Txt × Deal)
  | [] => ([], [])
  | (uid, items) :: rest =>
    let r1 := jobAlertsItems fetchItem uid items
    let r2 := jobAlerts fetchItem rest
    (r1.1 ++ r2.1, r1.2 ++ r2.2)

/-- The alerts table flattened to (user, target, minDrop) entries in job
order. -/
def alertEntries : List (Txt × List (Txt × ℤ)) → List (Txt × Txt × ℤ)
  | [] => []
  | (uid, items) :: rest => items.map (fun q => (uid, q)) ++ alertEntries rest

/-- alert_input of bot_full.py: the reply text is stripped and whitespace
split; exactly two parts whose second part is all digits are accepted and
stored as (target, minDrop), anything else is rejected.  The target itself
is not validated, so a full product URL is accepted. -/
def alert_input (text : Txt) : Option (Txt × ℤ) :=
  match pySplitWS (pyStrip text) with
  | [item, n] =>
    if !n.isEmpty && n.all Char.isDigit then some (item, (digitsVal n : ℤ)) else none
  | _ => none

/-! Concrete blocks and deals used to evaluate the pipeline at specific
inputs. -/

/-- A block listing a 95 percent discount deal. -/
def blkA : Block :=
  { title := some "Widget".toList, saleWhole := some "5".toList, saleFrac := some "00".toList,
    origText := some "$100.00".toList, href := some "/dp/B00WIDGET1/x".toList }

/-- The deal extracted from `blkA`. -/
def dealA : Deal :=
  { title := "Widget".toList, salePrice := 5, origPrice := 100, discount := 95,
    link := mkLink "B00WIDGET1".toList, asin := "B00WIDGET1".toList }

/-- A block listing a 91 percent discount deal. -/
def blkB : Block :=
  { title := some "Gadget".toList, saleWhole := some "9".toList, saleFrac := some "00".toList,
    origText := some "$100.00".toList, href := some "/dp/B00GADGET1/x".toList }

/-- The deal extracted from `blkB`. -/
def dealB : Deal :=
  { title := "Gadget".toList, salePrice := 9, origPrice := 100, discount := 91,
    link := mkLink "B00GADGET1".toList, asin := "B00GADGET1".toList }

/-- A qualifying block whose detail link node is absent. -/
def blkNoHref : Block :=
  { title := some "Widget".toList, saleWhole := some "5".toList, saleFrac := some "00".toList,
    origText := some "$100.00".toList, href := none }

/-- A block whose original price is slightly below its sale price. -/
def blkC : Block :=
  { title := some "Pen".toList, saleWhole := some "100".toList, saleFrac := none,
    origText := some "$99.50".toList, href := some "/dp/B000PEN111/y".toList }

/-- The deal bot_full.py builds from `blkC` at min_discount 0. -/
def dealC : Deal :=
  { title := "Pen".toList, salePrice := 100, origPrice := 199 / 2, discount := 0,
    link := mkLink "B000PEN111".toList, asin := "B000PEN111".toList }

/-- A block with no title node. -/
def blkNoTitle : Block :=
  { title := none, saleWhole := some "5".toList, saleFrac := none,
    origText := some "$9.00".toList, href := none }

/-- The deal bot_full.py builds from `blkD` when the threshold admits it. -/
def dealD : Deal :=
  { title := "Cam".toList, salePrice := 10, origPrice := 100, discount := 90,
    link := mkLink "B00BOUND01".toList, asin := "B00BOUND01".toList }

/-- The boundary-example block: sale 10.00, original 100.00, discount 90. -/
def blkD : Block :=
  { title := some "Cam".toList, saleWhole := some "10".toList, saleFrac := none,
    origText := some "$100.00".toList, href := some "/dp/B00BOUND01/z".toList }

/-- A 60 percent discount deal used in the subscription-job scenario. -/
def dealE : Deal :=
  { title := "Gizmo".toList, salePrice := 40, origPrice := 100, discount := 60,
    link := mkLink "B0EXAMPLE1".toList, asin := "B0EXAMPLE1".toList }

/-- A subscription table: user 7 subscribed to electronics at minDiscount 50. -/
def subsU : List (Txt × List (Txt × ℤ)) := [("7".toList, [("electronics".toList, 50)])]

/-- A scrape oracle that returns the one 60 percent deal for every query. -/
def dealsOfU : Txt → ℤ → List Deal := fun _ _ => [dealE]

end AmznDeals

deriving instance DecidableEq for Except

namespace AmznDeals

unseal Rat.add Rat.mul Rat.sub Rat.inv in
/-- Claim C1, refuted on job_subscriptions of bot_full.py: with user 7
subscribed to electronics at minDiscount 50 and a new 60 percent deal, the
job emits one obligation while leaving the Seen-Set state untouched, and an
immediate second run over the resulting Seen-Set state emits the same
obligation again instead of zero; job_callback of bot.py, in contrast, does
funnel through is_new_deal and emits nothing on its second run. -/
theorem jobSubscriptions_reemits_without_seen :
    jobSubscriptions subsU dealsOfU [] = ([("7".toList, dealE)], []) ∧
    jobSubscriptions subsU dealsOfU (jobSubscriptions subsU dealsOfU []).2 =
      ([("7".toList, dealE)], []) ∧
    (jobCallback [dealE] []).1 = [dealE] ∧
    (jobCallback [dealE] (jobCallback [dealE] []).2).1 = [] := by decide

unseal Rat.add Rat.mul Rat.sub Rat.inv in
/-- Claim C2, refuted on scrape_deals of scrape_and_notify.py: with three
locators whose second fetch raises, that variant aborts the whole
aggregation with the propagated fetch error, while the bot.py variant
returns the union of the deals of locators 1 and 3 as the claim states. -/
theorem scrapeDeals_fetch_failure_divergence :
    scrapeDealsSN [.ok [blkA], .error (), .ok [blkB]] = .error .fetch ∧
    scrapeDealsBot [.ok [blkA], .error (), .ok [blkB]] = .ok [dealA, dealB] := by decide

unseal Rat.add Rat.mul Rat.sub Rat.inv in
/-- Claim C4, refuted on scrape_category of bot_full.py at min_discount 0
(its default, used by the manual scrape and the alert job): a block with
sale price 100.00 and original price 99.50 is retained, because int()
truncates the discount of about -0.5 toward zero to 0 and 0 is not below
the threshold 0; the retained deal has originalPrice below salePrice and
discountPercent 0, while the floor of the exact discount is -1. -/
theorem scrape_category_keeps_inverted_price :
    scrapeCategoryFull 0 [blkC] = .ok [dealC] ∧
    dealC.origPrice < dealC.salePrice ∧
    dealC.discount = 0 ∧
    ⌊(dealC.origPrice - dealC.salePrice) / dealC.origPrice * 100⌋ = -1 := by decide

/-- Claim C3 counterexample: for a starting Seen-Set state that already
contains the link, the first call of is_new_deal returns false, not true as
the claim asserts for every starting state. -/
theorem is_new_deal_present_start_false :
    (is_new_deal "a".toList ["a".toList]).1 = false := by decide

unseal Rat.add Rat.mul Rat.sub Rat.inv in
/-- Claim C5 counterexample: a page listing the same item twice produces an
aggregation result holding two deals with the same link, so the aggregated
list is not deduplicated by link. -/
theorem scrapeDeals_duplicate_links :
    scrapeDealsSN [.ok [blkA, blkA]] = .ok [dealA, dealA] ∧
    ¬ (([dealA, dealA].map Deal.link).Nodup) := by decide

/-- Claim C8 counterexample: the empty string is not a key of CATEGORY_MAP,
yet get_category_urls applied to it returns the full mapped list rather
than the empty list, because Python truthiness sends the empty string to
the no-category branch. -/
theorem get_category_urls_empty_key :
    List.lookup (pyLower ([] : Txt)) CATEGORY_MAP = none ∧
    get_category_urls (some []) ≠ [] := by decide

unseal Rat.add Rat.mul Rat.sub Rat.inv in
/-- Claim C9 counterexample: a page holding a valid block followed by a
qualifying block with no detail link aborts with an uncaught fault instead
of skipping only the defective candidate, and the valid deal is lost. -/
theorem scrape_category_missing_href_fault :
    scrapeCategorySN [blkA, blkNoHref] = .error .missingHref := by decide

/-! Helper lemmas about the character-list models. -/

/-- A decimal digit is not whitespace. -/
theorem digit_not_ws {c : Char} (h : c.isDigit = true) : c.isWhitespace = false := by
  by_contra hw
  rw [Bool.not_eq_false] at hw
  simp only [Char.isWhitespace, Bool.or_eq_true, decide_eq_true_eq] at hw
  rcases hw with ((hw | hw) | hw) | hw <;> subst hw <;> exact absurd h (by decide)

/-- dropWhile is the identity when the predicate fails on every element. -/
theorem dropWhile_all_false {p : Char → Bool} {l : Txt} (h : ∀ c ∈ l, p c = false) :
    l.dropWhile p = l := by
  cases l with
  | nil => rfl
  | cons a t =>
    rw [List.dropWhile_cons, h a (List.mem_cons_self a t)]
    simp

/-- pyStrip is the identity on whitespace-free text. -/
theorem pyStrip_no_ws {l : Txt} (h : ∀ c ∈ l, c.isWhitespace = false) : pyStrip l = l := by
  unfold pyStrip
  rw [dropWhile_all_false h,
    dropWhile_all_false (fun c hc => h c (List.mem_reverse.mp hc)), List.reverse_reverse]

/-- takeWhile passes over a prefix on which the predicate holds. -/
theorem takeWhile_all_app {p : Char → Bool} (l r : Txt) (h : ∀ c ∈ l, p c = true) :
    (l ++ r).takeWhile p = l ++ r.takeWhile p := by
  induction l with
  | nil => simp
  | cons a t ih =>
    rw [List.cons_append, List.takeWhile_cons, h a (List.mem_cons_self a t)]
    simp [ih (fun c hc => h c (List.mem_cons_of_mem a hc))]

/-- dropWhile drops a prefix on which the predicate holds. -/
theorem dropWhile_all_app {p : Char → Bool} (l r : Txt) (h : ∀ c ∈ l, p c = true) :
    (l ++ r).dropWhile p = r.dropWhile p := by
  induction l with
  | nil => simp
  | cons a t ih =>
    rw [List.cons_append, List.dropWhile_cons, h a (List.mem_cons_self a t)]
    simp [ih (fun c hc => h c (List.mem_cons_of_mem a hc))]

/-- Value of the float parser core on a digits-dot-digits text. -/
theorem parseFloatCore_frac {w f : Txt} (hw : ∀ c ∈ w, c.isDigit = true) (hne : w ≠ [])
    (hf : ∀ c ∈ f, c.isDigit = true) :
    parseFloatCore (w ++ '.' :: f) =
      some ((digitsVal w : ℚ) + (digitsVal f : ℚ) / (10 : ℚ) ^ f.length) := by
  unfold parseFloatCore
  rw [dropWhile_all_app w ('.' :: f) hw, takeWhile_all_app w ('.' :: f) hw]
  rw [List.dropWhile_cons, List.takeWhile_cons]
  have hdot : ('.' : Char).isDigit = false := by decide
  rw [hdot]
  simp only [if_false, Bool.false_eq_true, List.append_nil]
  have hwe : w.isEmpty = false := by
    cases w with
    | nil => exact absurd rfl hne
    | cons a t => rfl
  simp [hwe, List.all_eq_true.mpr hf]

/-- The whitespace-strip inside float() is the identity on the assembled
sale text when its pieces are digits. -/
theorem parseSaleSN_pair {w f : Txt}
    (h1 : removeCommas (pyStrip w) ≠ [])
    (h2 : (removeCommas (pyStrip w)).all Char.isDigit = true)
    (h3 : (pyStrip f).all Char.isDigit = true) :
    parseSaleSN w (some f) =
      some ((digitsVal (removeCommas (pyStrip w)) : ℚ) +
        (digitsVal (pyStrip f) : ℚ) / (10 : ℚ) ^ (pyStrip f).length) := by
  unfold parseSaleSN parseFloatTxt saleTxt
  have h2m := List.all_eq_true.mp h2
  have h3m := List.all_eq_true.mp h3
  rw [pyStrip_no_ws]
  · exact parseFloatCore_frac h2m h1 h3m
  · intro c hc
    rcases List.mem_append.mp hc with hcl | hcr
    · exact digit_not_ws (h2m c hcl)
    · rcases List.mem_cons.mp hcr with rfl | hcf
      · rfl
      · exact digit_not_ws (h3m c hcf)

/-- Like `parseSaleSN_pair` for an absent fraction node: the source fills in
"00". -/
theorem parseSaleSN_none {w : Txt}
    (h1 : removeCommas (pyStrip w) ≠ [])
    (h2 : (removeCommas (pyStrip w)).all Char.isDigit = true) :
    parseSaleSN w none = some ((digitsVal (removeCommas (pyStrip w)) : ℚ)) := by
  unfold parseSaleSN parseFloatTxt saleTxt
  have h2m := List.all_eq_true.mp h2
  rw [pyStrip_no_ws]
  · rw [parseFloatCore_frac h2m h1 (by decide), show digitsVal ['0', '0'] = 0 from rfl]
    norm_num
  · intro c hc
    rcases List.mem_append.mp hc with hcl | hcr
    · exact digit_not_ws (h2m c hcl)
    · rcases List.mem_cons.mp hcr with rfl | hcf
      · rfl
      · rcases List.mem_cons.mp hcf with rfl | hcf2
        · rfl
        · rcases List.mem_cons.mp hcf2 with rfl | hcf3
          · rfl
          · cases hcf3

/-- A block whose price text fails to parse is skipped with no fault: the
ValueError branch of the source continues to the next block. -/
theorem processBlockSN_parse_fail (b : Block) (t w o : Txt)
    (ht : b.title = some t) (hw : b.saleWhole = some w) (ho : b.origText = some o)
    (hp : parseSaleSN w b.saleFrac = none ∨ parseOrig o = none) :
    processBlockSN b = .ok none := by
  obtain ⟨bt, bw, bf, bo, bh⟩ := b
  simp only at ht hw ho
  subst ht; subst hw; subst ho
  rcases hp with hp | hp
  · simp only at hp
    unfold processBlockSN
    simp only [hp]
  · unfold processBlockSN
    simp only at hp ⊢
    cases hps : parseSaleSN w bf <;> simp [hps, hp]

/-- A block missing its title, sale-price or original-price node is skipped
with no fault. -/
theorem processBlockSN_missing (b : Block)
    (h : b.title = none ∨ b.saleWhole = none ∨ b.origText = none) :
    processBlockSN b = .ok none := by
  obtain ⟨bt, bw, bf, bo, bh⟩ := b
  simp only at h
  rcases h with h | h | h
  · subst h; rfl
  · subst h; cases bt <;> rfl
  · subst h
    cases bt <;> try rfl
    cases bw <;> rfl

/-- Claim C3 (amended): for a starting state not containing the link, two
calls of is_new_deal return true then false, a third call still returns
false, and every call returning false leaves the persisted state untouched
(the insert happens only on the true branch). -/
theorem is_new_deal_idem :
    ∀ (L : Txt) (s : List Txt), L ∉ s →
      (is_new_deal L s).1 = true ∧
      (is_new_deal L (is_new_deal L s).2).1 = false ∧
      (is_new_deal L (is_new_deal L (is_new_deal L s).2).2).1 = false ∧
      ∀ s' : List Txt, (is_new_deal L s').1 = false → (is_new_deal L s').2 = s' := by
  intro L s h
  refine ⟨by simp [is_new_deal, h], by simp [is_new_deal, h], by simp [is_new_deal, h], ?_⟩
  intro s' h'
  by_cases hm : L ∈ s'
  · simp [is_new_deal, hm]
  · simp [is_new_deal, hm] at h'

/-- Witness for `is_new_deal_idem` at the link "x" and the empty state. -/
theorem is_new_deal_idem_witness :
    (is_new_deal "x".toList []).1 = true ∧
    (is_new_deal "x".toList (is_new_deal "x".toList []).2).1 = false :=
  ⟨(is_new_deal_idem "x".toList [] (by simp)).1,
   (is_new_deal_idem "x".toList [] (by simp)).2.1⟩

unseal Rat.add Rat.mul Rat.sub Rat.inv in
/-- Claim C6: on a valid sale-price pair the parser of bot.py and
scrape_and_notify.py yields whole + frac/100 exactly, with commas removed
from the whole part; an absent fraction defaults to "00"; the original-price
parser strips blanks, the currency symbol and thousands separators; and a
block whose price text does not parse is skipped, not a fault. -/
theorem price_parser_contract :
    (∀ w f : Txt, removeCommas (pyStrip w) ≠ [] →
        (removeCommas (pyStrip w)).all Char.isDigit = true →
        (pyStrip f).all Char.isDigit = true → (pyStrip f).length = 2 →
        parseSaleSN w (some f) =
          some ((digitsVal (removeCommas (pyStrip w)) : ℚ) +
            (digitsVal (pyStrip f) : ℚ) / 100)) ∧
    (∀ w : Txt, removeCommas (pyStrip w) ≠ [] →
        (removeCommas (pyStrip w)).all Char.isDigit = true →
        parseSaleSN w none = some ((digitsVal (removeCommas (pyStrip w)) : ℚ))) ∧
    parseOrig " $1,234.56 ".toList = some (1234 + 56 / 100) ∧
    (∀ (b : Block) (t w o : Txt), b.title = some t → b.saleWhole = some w →
        b.origText = some o → parseSaleSN w b.saleFrac = none ∨ parseOrig o = none →
        processBlockSN b = .ok none) := by
  refine ⟨?_, fun w h1 h2 => parseSaleSN_none h1 h2, by decide, processBlockSN_parse_fail⟩
  intro w f h1 h2 h3 hlen
  rw [parseSaleSN_pair h1 h2 h3, hlen]
  norm_num

/-- Witness for `price_parser_contract` at whole text "1,234" and fraction
text "56". -/
theorem price_parser_contract_witness :
    parseSaleSN "1,234".toList (some "56".toList) =
      some ((digitsVal (removeCommas (pyStrip "1,234".toList)) : ℚ) +
        (digitsVal (pyStrip "56".toList) : ℚ) / 100) :=
  price_parser_contract.1 "1,234".toList "56".toList (by decide) (by decide)
    (by decide) (by decide)

/-- A block whose parsed original price is zero faults at the discount
division. -/
theorem processBlockSN_zero_orig (b : Block) (t w o : Txt) (sale : ℚ)
    (ht : b.title = some t) (hw : b.saleWhole = some w) (ho : b.origText = some o)
    (hs : parseSaleSN w b.saleFrac = some sale) (hz : parseOrig o = some 0) :
    processBlockSN b = .error .zeroDiv := by
  obtain ⟨bt, bw, bf, bo, bh⟩ := b
  simp only at ht hw ho hs
  subst ht; subst hw; subst ho
  unfold processBlockSN
  simp [hs, hz]

/-- A qualifying block with no detail link faults at the href lookup. -/
theorem processBlockSN_no_href (b : Block) (t w o : Txt) (sale orig : ℚ)
    (ht : b.title = some t) (hw : b.saleWhole = some w) (ho : b.origText = some o)
    (hh : b.href = none)
    (hs : parseSaleSN w b.saleFrac = some sale) (hor : parseOrig o = some orig)
    (hz : orig ≠ 0) (hk : ¬ ((orig - sale) / orig * 100 < 90)) :
    processBlockSN b = .error .missingHref := by
  obtain ⟨bt, bw, bf, bo, bh⟩ := b
  simp only at ht hw ho hh hs hor
  subst ht; subst hw; subst ho; subst hh
  unfold processBlockSN
  simp only [hs, hor]
  rw [if_neg hz, if_neg hk]

/-- The page loop completes when no block faults. -/
theorem scrapeCatGo_all_ok (f : Block → Except Fault (Option Deal)) :
    ∀ (bs : List Block) (acc : List Deal), (∀ b ∈ bs, ∃ r, f b = .ok r) →
      ∃ ds, scrapeCatGo f acc bs = .ok ds := by
  intro bs
  induction bs with
  | nil => exact fun acc _ => ⟨acc, rfl⟩
  | cons b t ih =>
    intro acc h
    obtain ⟨r, hr⟩ := h b (List.mem_cons_self b t)
    have ht : ∀ x ∈ t, ∃ r, f x = .ok r := fun x hx => h x (List.mem_cons_of_mem b hx)
    cases r with
    | none =>
      obtain ⟨ds, hds⟩ := ih acc ht
      exact ⟨ds, by simp only [scrapeCatGo]; rw [hr]; exact hds⟩
    | some d =>
      obtain ⟨ds, hds⟩ := ih (acc ++ [d]) ht
      exact ⟨ds, by simp only [scrapeCatGo]; rw [hr]; exact hds⟩

/-- Claim C9 (amended): a block missing title, sale price or original price
is silently skipped, as is one whose price text does not parse; but a block
that passes those checks faults when its parsed original price is zero, or
when it meets the threshold and its detail link node is absent; extraction
of a page completes whenever no block faults. -/
theorem scrape_category_skip_and_complete :
    (∀ b : Block, b.title = none ∨ b.saleWhole = none ∨ b.origText = none →
        processBlockSN b = .ok none) ∧
    (∀ (b : Block) (t w o : Txt), b.title = some t → b.saleWhole = some w →
        b.origText = some o → parseSaleSN w b.saleFrac = none ∨ parseOrig o = none →
        processBlockSN b = .ok none) ∧
    (∀ (b : Block) (t w o : Txt) (sale : ℚ), b.title = some t → b.saleWhole = some w →
        b.origText = some o → parseSaleSN w b.saleFrac = some sale → parseOrig o = some 0 →
        processBlockSN b = .error .zeroDiv) ∧
    (∀ (b : Block) (t w o : Txt) (sale orig : ℚ), b.title = some t → b.saleWhole = some w →
        b.origText = some o → b.href = none → parseSaleSN w b.saleFrac = some sale →
        parseOrig o = some orig → orig ≠ 0 → ¬ ((orig - sale) / orig * 100 < 90) →
        processBlockSN b = .error .missingHref) ∧
    (∀ blocks : List Block, (∀ b ∈ blocks, ∃ r, processBlockSN b = .ok r) →
        ∃ ds, scrapeCategorySN blocks = .ok ds) :=
  ⟨processBlockSN_missing, processBlockSN_parse_fail, processBlockSN_zero_orig,
   processBlockSN_no_href, fun blocks h => scrapeCatGo_all_ok processBlockSN blocks [] h⟩

/-- Witness for `scrape_category_skip_and_complete`: a block with no title
node is skipped. -/
theorem scrape_category_skip_and_complete_witness :
    processBlockSN blkNoTitle = .ok none :=
  scrape_category_skip_and_complete.1 blkNoTitle (Or.inl rfl)

/-- The aggregation loop over fault-free fetched pages returns the per-page
deal lists concatenated in order. -/
theorem aggGo_ok_map (pr : List Block → Except Fault (List Deal)) :
    ∀ (ps : List (List Block)) (acc : List Deal),
      (∀ p ∈ ps, ∃ ds, pr p = .ok ds) →
      aggGo pr acc (ps.map Except.ok) =
        .ok (ps.foldl (fun a p => a ++ ((pr p).toOption.getD [])) acc) := by
  intro ps
  induction ps with
  | nil => intro acc _; rfl
  | cons p t ih =>
    intro acc h
    obtain ⟨ds, hds⟩ := h p (List.mem_cons_self p t)
    have h2 : ∀ q ∈ t, ∃ ds, pr q = .ok ds := fun q hq => h q (List.mem_cons_of_mem p hq)
    simp only [List.map_cons, List.foldl_cons, aggGo]
    rw [hds]
    exact ih (acc ++ ds) h2

/-- Claim C5 (amended): over fault-free locators the aggregators of
scrape_and_notify.py and bot_full.py return exactly the per-page deal lists
concatenated in first-seen order; no deduplication by link is applied. -/
theorem scrapeDeals_concat_no_dedup :
    (∀ ps : List (List Block), (∀ p ∈ ps, ∃ ds, scrapeCategorySN p = .ok ds) →
        scrapeDealsSN (ps.map Except.ok) =
          .ok (ps.foldl (fun a p => a ++ ((scrapeCategorySN p).toOption.getD [])) [])) ∧
    (∀ (minD : ℤ) (ps : List (List Block)),
        (∀ p ∈ ps, ∃ ds, scrapeCategoryFull minD p = .ok ds) →
        scrapeDealsFull minD (ps.map Except.ok) =
          .ok (ps.foldl (fun a p => a ++ ((scrapeCategoryFull minD p).toOption.getD [])) [])) :=
  ⟨fun ps h => aggGo_ok_map scrapeCategorySN ps [] h,
   fun minD ps h => aggGo_ok_map (scrapeCategoryFull minD) ps [] h⟩

unseal Rat.add Rat.mul Rat.sub Rat.inv in
/-- Witness for `scrapeDeals_concat_no_dedup` on two concrete pages. -/
theorem scrapeDeals_concat_no_dedup_witness :
    scrapeDealsSN ([[blkA], [blkB]].map Except.ok) =
      .ok ([[blkA], [blkB]].foldl
        (fun a p => a ++ ((scrapeCategorySN p).toOption.getD [])) []) := by
  refine scrapeDeals_concat_no_dedup.1 [[blkA], [blkB]] ?_
  intro p hp
  rcases List.mem_cons.mp hp with rfl | hp2
  · exact ⟨[dealA], by decide⟩
  · rcases List.mem_cons.mp hp2 with rfl | hp3
    · exact ⟨[dealB], by decide⟩
    · exact absurd hp3 (List.not_mem_nil p)

unseal Rat.add Rat.mul Rat.sub Rat.inv in
/-- Claim C7: a parsed candidate is kept exactly when the computed discount
meets the threshold, inclusively, in both the parameterized bot_full.py
filter and the fixed-90 filter of bot.py and scrape_and_notify.py; at sale
10 and original 100 the discount is 90, kept at threshold 90 and dropped at
threshold 91. -/
theorem discount_filter_inclusive :
    (∀ (minD : ℤ) (t w o hr : Txt) (sale orig : ℚ),
        parseSaleFull w = some sale → parseOrig o = some orig → orig ≠ 0 →
        ((∃ d, processBlockFull minD
            { title := some t, saleWhole := some w, saleFrac := none,
              origText := some o, href := some hr } = .ok (some d)) ↔
          minD ≤ pyInt ((orig - sale) / orig * 100))) ∧
    (∀ (t w o hr : Txt) (fr : Option Txt) (sale orig : ℚ),
        parseSaleSN w fr = some sale → parseOrig o = some orig → orig ≠ 0 →
        ((∃ d, processBlockSN
            { title := some t, saleWhole := some w, saleFrac := fr,
              origText := some o, href := some hr } = .ok (some d)) ↔
          (90 : ℚ) ≤ (orig - sale) / orig * 100)) ∧
    pyInt (((100 : ℚ) - 10) / 100 * 100) = 90 ∧
    (∃ d, processBlockFull 90 blkD = .ok (some d)) ∧
    processBlockFull 91 blkD = .ok none := by
  refine ⟨?_, ?_, by decide, ⟨dealD, by decide⟩, by decide⟩
  · intro minD t w o hr sale orig hs ho hz
    unfold processBlockFull
    simp only [hs, ho]
    rw [if_neg hz]
    by_cases hlt : pyInt ((orig - sale) / orig * 100) < minD
    · rw [if_pos hlt]
      constructor
      · rintro ⟨d, hd⟩
        simp at hd
      · intro hle
        exact absurd hle (not_le.mpr hlt)
    · rw [if_neg hlt]
      exact ⟨fun _ => not_lt.mp hlt, fun _ => ⟨_, rfl⟩⟩
  · intro t w o hr fr sale orig hs ho hz
    unfold processBlockSN
    simp only [hs, ho]
    rw [if_neg hz]
    by_cases hlt : (orig - sale) / orig * 100 < 90
    · rw [if_pos hlt]
      constructor
      · rintro ⟨d, hd⟩
        simp at hd
      · intro hle
        exact absurd hle (not_le.mpr hlt)
    · rw [if_neg hlt]
      exact ⟨fun _ => not_lt.mp hlt, fun _ => ⟨_, rfl⟩⟩

unseal Rat.add Rat.mul Rat.sub Rat.inv in
/-- Witness for `discount_filter_inclusive` at threshold 50 on the
boundary-example block. -/
theorem discount_filter_inclusive_witness :
    (∃ d, processBlockFull 50 blkD = .ok (some d)) ↔
      (50 : ℤ) ≤ pyInt (((100 : ℚ) - 10) / 100 * 100) :=
  discount_filter_inclusive.1 50 "Cam".toList "10".toList "$100.00".toList
    "/dp/B00BOUND01/z".toList 10 100 (by decide) (by decide) (by decide)

/-- A successful lookup in the one-entry CATEGORY_MAP returns its one path. -/
theorem lookup_category {k p : Txt} (h : List.lookup k CATEGORY_MAP = some p) :
    p = elecPath := by
  simp only [CATEGORY_MAP, List.lookup] at h
  split at h
  · exact (Option.some_inj.mp h).symm
  · cases h

/-- Reduction of the builder on a nonempty key. -/
theorem get_category_urls_cons (a : Char) (t : Txt) :
    get_category_urls (some (a :: t)) =
      (match List.lookup (pyLower (a :: t)) CATEGORY_MAP with
       | some p => if p.isEmpty then [] else [make_url p]
       | none => []) := rfl

/-- Every builder result is the full mapped list, empty, or the one mapped
locator. -/
theorem get_category_urls_cases (cat : Option Txt) :
    get_category_urls cat = CATEGORY_MAP.map (fun kv => make_url kv.2) ∨
    get_category_urls cat = [] ∨
    get_category_urls cat = [make_url elecPath] := by
  match cat with
  | none => exact Or.inl rfl
  | some c =>
    cases c with
    | nil => exact Or.inl rfl
    | cons a t =>
      rcases hl : List.lookup (pyLower (a :: t)) CATEGORY_MAP with _ | p
      · refine Or.inr (Or.inl ?_)
        rw [get_category_urls_cons, hl]
      · refine Or.inr (Or.inr ?_)
        rw [get_category_urls_cons, hl, lookup_category hl]
        rfl

/-- Claim C8 (amended): a nonempty unknown key yields the empty locator
list, a nonempty known key yields exactly the one mapped locator, an absent
key yields one locator per mapped category, and every returned locator ends
with the ascending-price sort marker; an empty-string key is treated like an
absent key by Python truthiness. -/
theorem get_category_urls_spec :
    (∀ c : Txt, c ≠ [] → List.lookup (pyLower c) CATEGORY_MAP = none →
        get_category_urls (some c) = []) ∧
    (∀ c p : Txt, c ≠ [] → List.lookup (pyLower c) CATEGORY_MAP = some p →
        get_category_urls (some c) = [make_url p]) ∧
    (get_category_urls none).length = CATEGORY_MAP.length ∧
    (∀ (cat : Option Txt) (u : Txt), u ∈ get_category_urls cat →
        endsWithTxt u "sort=price-asc-rank".toList = true) := by
  refine ⟨?_, ?_, by decide, ?_⟩
  · intro c hc hl
    cases c with
    | nil => exact absurd rfl hc
    | cons a t => rw [get_category_urls_cons, hl]
  · intro c p hc hl
    have hp := lookup_category hl
    subst hp
    cases c with
    | nil => exact absurd rfl hc
    | cons a t =>
      rw [get_category_urls_cons, hl]
      rfl
  · intro cat u hu
    rcases get_category_urls_cases cat with h | h | h <;> rw [h] at hu
    · simp only [CATEGORY_MAP, List.map_cons, List.map_nil, List.mem_singleton] at hu
      rw [hu]
      decide
    · exact absurd hu (List.not_mem_nil u)
    · rw [List.mem_singleton] at hu
      rw [hu]
      decide

/-- Witness for `get_category_urls_spec`: the key books is unknown, the key
Electronics maps to the one locator, and that locator carries the sort
marker. -/
theorem get_category_urls_spec_witness :
    get_category_urls (some "books".toList) = [] ∧
    get_category_urls (some "Electronics".toList) = [make_url elecPath] ∧
    endsWithTxt (make_url elecPath) "sort=price-asc-rank".toList = true :=
  ⟨get_category_urls_spec.1 "books".toList (by decide) (by decide),
   get_category_urls_spec.2.1 "Electronics".toList elecPath (by decide) (by decide),
   get_category_urls_spec.2.2.2 (some "Electronics".toList) (make_url elecPath)
     (by decide)⟩

/-- The per-user alert loop fetches and emits exactly along its length-10
targets. -/
theorem jobAlertsItems_spec (fetch : Txt → List Deal) (uid : Txt) :
    ∀ items : List (Txt × ℤ),
      jobAlertsItems fetch uid items =
        (items.filterMap (fun q => if q.1.length = 10 then some (alertUrl q.1) else none),
         items.filterMap (fun q => if q.1.length = 10 then
           (fetch q.1).head?.map (fun d => (uid, d)) else none)) := by
  intro items
  induction items with
  | nil => rfl
  | cons q qs ih =>
    by_cases h : q.1.length = 10
    · simp only [jobAlertsItems, ih, if_pos h, List.filterMap_cons]
      cases hf : fetch q.1 <;> simp [h, hf]
    · simp [jobAlertsItems, ih, h, List.filterMap_cons]

/-- The whole alert job fetches and emits exactly along the length-10
targets of the flattened alert table. -/
theorem jobAlerts_spec (fetch : Txt → List Deal) :
    ∀ alerts : List (Txt × List (Txt × ℤ)),
      jobAlerts fetch alerts =
        ((alertEntries alerts).filterMap
          (fun e => if e.2.1.length = 10 then some (alertUrl e.2.1) else none),
         (alertEntries alerts).filterMap
          (fun e => if e.2.1.length = 10 then
            (fetch e.2.1).head?.map (fun d => (e.1, d)) else none)) := by
  intro alerts
  induction alerts with
  | nil => rfl
  | cons p rest ih =>
    obtain ⟨uid, items⟩ := p
    simp only [jobAlerts, alertEntries, ih, jobAlertsItems_spec, List.filterMap_append,
      List.filterMap_map]
    rfl

/-- Claim C10: job_alerts looks a target up only when it is exactly 10
characters long; its fetched locators and emitted obligations come exactly
from the length-10 targets, so an alert stored with a full product URL,
which alert_input accepts, is never fetched and never produces an
obligation. -/
theorem job_alerts_len10_gate :
    (∀ (fetch : Txt → List Deal) (alerts : List (Txt × List (Txt × ℤ))),
        (jobAlerts fetch alerts).1 =
          (alertEntries alerts).filterMap
            (fun e => if e.2.1.length = 10 then some (alertUrl e.2.1) else none) ∧
        (jobAlerts fetch alerts).2 =
          (alertEntries alerts).filterMap
            (fun e => if e.2.1.length = 10 then
              (fetch e.2.1).head?.map (fun d => (e.1, d)) else none)) ∧
    alert_input "https://www.amazon.ca/dp/B0ABCDEFGH 30".toList =
      some ("https://www.amazon.ca/dp/B0ABCDEFGH".toList, 30) ∧
    ("https://www.amazon.ca/dp/B0ABCDEFGH".toList).length ≠ 10 ∧
    jobAlerts (fun _ => [dealE])
      [("5".toList, [("https://www.amazon.ca/dp/B0ABCDEFGH".toList, 30)])] = ([], []) := by
  refine ⟨fun fetch alerts => ?_, by decide, by decide, by decide⟩
  rw [jobAlerts_spec]
  exact ⟨rfl, rfl⟩

end AmznDeals
